import Mathlib

/-!
Shallow embedding, over exact arithmetic, of the numeric core of the
dopamine-electrochemistry scripts:

* `buttler_butter_fast_scan_cyclic.py` / `buttler_volmer_ideal.py`
  (triangular FSCV waveform, Butler-Volmer current model);
* `butler_volmer.py` (bare Butler-Volmer sweep);
* `oxidacion_dopamina.py` (mean-reverting noise trajectories, stress-event
  scheduling, explicit-Euler reaction integrator).

Pure rational/real arithmetic replaces NumPy floats ("assuming exact
arithmetic", as the specification puts it).  Transcendental ingredients
(`np.sqrt`, `np.sin`, `np.exp`, `10**x`) are either modelled with Mathlib's
real functions, or — where a claim holds for every value of the
transcendental quantity — taken as an explicit parameter, so that the
surrounding arithmetic structure is embedded exactly as the source writes it.
-/

namespace DopamineSim

/-! ### Time grid and triangular waveform

`buttler_butter_fast_scan_cyclic.py` (identically `buttler_volmer_ideal.py`):

    dt = 1e-5
    t = np.arange(0, time_total, dt)
    num_points = len(t)
    E = np.zeros(num_points)
    half_time = time_total / 2
    for i in range(num_points):
        if t[i] < half_time:
            E[i] = E_start + (E_vertex - E_start) * t[i] / half_time
        else:
            E[i] = E_vertex - (E_vertex - E_start) * (t[i] - half_time) / half_time

`np.arange(0, stop, step)` produces `max 0 ⌈stop/step⌉` samples `i*step`. -/

/-- Number of samples of `np.arange(0, stop, step)` (exact arithmetic):
`⌈stop/step⌉` clamped to zero from below. -/
def numPoints (stop step : ℚ) : ℕ :=
  (Int.ceil (stop / step)).toNat

/-- The sample `t[i] = i * dt` of `np.arange(0, time_total, dt)`. -/
def tSample (dt : ℚ) (i : ℕ) : ℚ := (i : ℚ) * dt

/-- The ramp-up branch of the triangular sweep:
`E_start + (E_vertex - E_start) * t / half_time` with `half_time = time_total/2`. -/
def rampUp (Estart Evertex timeTotal t : ℚ) : ℚ :=
  Estart + (Evertex - Estart) * t / (timeTotal / 2)

/-- The ramp-down branch of the triangular sweep:
`E_vertex - (E_vertex - E_start) * (t - half_time) / half_time`. -/
def rampDown (Estart Evertex timeTotal t : ℚ) : ℚ :=
  Evertex - (Evertex - Estart) * (t - timeTotal / 2) / (timeTotal / 2)

/-- The waveform sample `E[i]`: the source's branch on `t[i] < half_time`
(strict comparison, exactly as written in the source). -/
def Esample (Estart Evertex timeTotal dt : ℚ) (i : ℕ) : ℚ :=
  if tSample dt i < timeTotal / 2 then
    rampUp Estart Evertex timeTotal (tSample dt i)
  else
    rampDown Estart Evertex timeTotal (tSample dt i)

/-- The full waveform array `E`, one entry per sample of the time grid. -/
def Ewave (Estart Evertex timeTotal dt : ℚ) : List ℚ :=
  (List.range (numPoints timeTotal dt)).map (Esample Estart Evertex timeTotal dt)

/-! ### Mean-reverting noise trajectories (`oxidacion_dopamina.py`)

    ph = np.zeros(n_pas+1)
    ph[0] = 7.2
    for i in range(n_pas):
        ph[i+1] = ph[i] + theta*(7.2 - ph[i])*dt + sigma_ph*np.sqrt(dt)*np.random.randn()
    ph = np.clip(ph, 6.5, 7.8)

(and identically for `oxigeno` with its own parameters).  The generic
generator below is the spec's `generate_mean_reverting` contract, embedded
directly from this loop.  `np.sqrt(dt)` is irrational for the source's
`dt = 0.1`, so its value is passed as the explicit parameter `sqdt`; every
property proved below holds for all values of `sqdt`, in particular for the
true square root.  The standard-normal draws of the random source are the
abstract stream `Z`. -/

/-- Pre-clamp recurrence `x[i+1] = x[i] + theta*(mean - x[i])*dt + sigma*sqdt*Z i`. -/
def genMeanRev (x0 mean theta sigma dt sqdt : ℚ) (Z : ℕ → ℚ) : ℕ → ℚ
  | 0 => x0
  | i + 1 =>
    genMeanRev x0 mean theta sigma dt sqdt Z i
      + theta * (mean - genMeanRev x0 mean theta sigma dt sqdt Z i) * dt
      + sigma * sqdt * Z i

/-- Elementwise `np.clip(x, lo, hi) = min (max x lo) hi`. -/
def clip (lo hi x : ℚ) : ℚ := min (max x lo) hi

/-- `generate_mean_reverting`: run the recurrence for `n` steps (output length
`n+1`) and clamp the whole trajectory post-hoc, as the source does. -/
def generate_mean_reverting (x0 mean theta sigma dt sqdt : ℚ) (Z : ℕ → ℚ)
    (n : ℕ) (lo hi : ℚ) : List ℚ :=
  ((List.range (n + 1)).map (genMeanRev x0 mean theta sigma dt sqdt Z)).map (clip lo hi)

/-! ### Stress events and the explicit-Euler reaction integrator

    tiempos_picos = np.sort(np.random.uniform(0, T, n_picos))
    magnitudes_picos = np.random.uniform(0.1, 0.5, n_picos)
    indices_picos = [int(tp/dt) for tp in tiempos_picos]

    for i in range(n_pas):
        v = k_base * dopamina[i] * oxigeno[i] * factor_ph(ph[i])
        d_dop = -v
        d_h2o2 = v - k_decomp * peroxido_hidrogeno[i]
        d_quin = v
        dopamina[i+1] = dopamina[i] + d_dop * dt
        peroxido_hidrogeno[i+1] = peroxido_hidrogeno[i] + d_h2o2 * dt
        quinona[i+1] = quinona[i] + d_quin * dt
        if i in indices_picos:
            j = indices_picos.index(i)
            peroxido_hidrogeno[i+1] += magnitudes_picos[j]

The event times, magnitudes and the pH/oxygen trajectories are random inputs
of the loop; the claims quantify over every realization, so the integrator
takes them as parameters: `idxs`/`mags` are `indices_picos`/
`magnitudes_picos` (equal length in the source) and `oxi`/`ph` the generated
trajectories.  `factor_ph(x) = 10**(x - 7.2)` is transcendental for rational
pH, so the factor is the explicit function parameter `fph`; every property
below holds for all `fph`, in particular the source's. -/

/-- `int(tp/dt)` for a drawn event time `tp ≥ 0`: floor of the quotient. -/
def indexOfTime (tp dt : ℚ) : ℕ := (Int.floor (tp / dt)).toNat

/-- One run of the Euler loop: `eulerSim … i = (dopamina[i],
peroxido_hidrogeno[i], quinona[i])`.  The event branch is the source's
`if i in indices_picos: peroxido[i+1] += magnitudes[indices_picos.index(i)]`:
Python's `list.index` returns the FIRST matching position. -/
def eulerSim (dt kBase kDecomp : ℚ) (oxi ph : ℕ → ℚ) (fph : ℚ → ℚ)
    (idxs : List ℕ) (mags : List ℚ) (d0 p0 q0 : ℚ) : ℕ → ℚ × ℚ × ℚ
  | 0 => (d0, p0, q0)
  | i + 1 =>
    let s := eulerSim dt kBase kDecomp oxi ph fph idxs mags d0 p0 q0 i
    let v := kBase * s.1 * oxi i * fph (ph i)
    let dop := s.1 + (-v) * dt
    let per := s.2.1 + (v - kDecomp * s.2.1) * dt
    let qui := s.2.2 + v * dt
    if i ∈ idxs then (dop, per + mags.getD (idxs.indexOf i) 0, qui)
    else (dop, per, qui)

/-- The three concentration arrays have `n_pas + 1` entries, indices
`0 … n_pas`; the loop body runs for `i = 0 … n_pas - 1`. -/
def simTraj (dt kBase kDecomp : ℚ) (oxi ph : ℕ → ℚ) (fph : ℚ → ℚ)
    (idxs : List ℕ) (mags : List ℚ) (d0 p0 q0 : ℚ) (nPas : ℕ) :
    List (ℚ × ℚ × ℚ) :=
  (List.range (nPas + 1)).map (eulerSim dt kBase kDecomp oxi ph fph idxs mags d0 p0 q0)

/-- The amount the event branch adds to `peroxido_hidrogeno[i+1]` at step `i`
(zero when no event maps to `i`). -/
def injection (idxs : List ℕ) (mags : List ℚ) (i : ℕ) : ℚ :=
  if i ∈ idxs then mags.getD (idxs.indexOf i) 0 else 0

/-! ### Butler-Volmer current models (real arithmetic)

The three Butler-Volmer embeddings use `exp`/`sin`/`pi`, so they live over
`ℝ` with Mathlib's exact transcendental functions.  Constants are the
source's literals. -/

namespace BV

/-- Faraday constant, `F = 96485` (C/mol). -/
def F : ℝ := 96485

/-- Universal gas constant, `R = 8.314` (J/(mol*K)). -/
def R : ℝ := 8.314

/-- Temperature, `T = 298` (K). -/
def T : ℝ := 298

/-- Electrons transferred, `n = 2`. -/
def n : ℝ := 2

/-- Charge transfer coefficient configured in all three scripts, `alpha = 0.5`. -/
def alpha : ℝ := 0.5

/-- Standard rate constant, `k0 = 1e-2` (cm/s). -/
def k0 : ℝ := 1e-2

/-- Bulk dopamine concentration, `C_bulk = 1e-6` (mol/cm^3). -/
def C_bulk : ℝ := 1e-6

/-- Diffusion coefficient, `D = 6e-6` (cm^2/s). -/
def D : ℝ := 6e-6

/-- Diffusion-layer thickness, `delta = 10e-4` (cm). -/
def delta : ℝ := 10e-4

/-- Standard reduction potential, `E0 = 0.2` (V). -/
def E0 : ℝ := 0.2

/-- Scan rate, `scan_rate = 400` (V/s). -/
def scan_rate : ℝ := 400

/-- Vertex potential of the FSCV sweep, `E_vertex = 1.3` (V). -/
def E_vertex : ℝ := 1.3

/-- Exchange current density of the FSCV scripts, `j0 = n * F * k0 * C_bulk`. -/
noncomputable def j0 : ℝ := n * F * k0 * C_bulk

/-- `butler_volmer.py`, kept generic in the exchange current `i0v` and
transfer coefficient `av` (the script sets `i0 = 1e-6`, `alpha = 0.5`):

    current = i0 * (np.exp((alpha * n * F * eta) / (R * T))
                    - np.exp(-(1 - alpha) * n * F * eta / (R * T))) -/
noncomputable def sweepCurrent (i0v av eta : ℝ) : ℝ :=
  i0v * (Real.exp (av * n * F * eta / (R * T))
    - Real.exp (-(1 - av) * n * F * eta / (R * T)))

/-- The charge-transfer term shared by `buttler_volmer_ideal.py`
(`butler_volmer_ideal`, its whole return value) and
`buttler_butter_fast_scan_cyclic.py` (`j_net`), generic in `j0v`/`av`
(both scripts use `j0`/`alpha` above):

    exp_term_a = np.exp(-alpha * n * F * eta / (R * T))
    exp_term_c = np.exp((1 - alpha) * n * F * eta / (R * T))
    j_net = j0 * (exp_term_c - exp_term_a) -/
noncomputable def chargeTransfer (j0v av eta : ℝ) : ℝ :=
  j0v * (Real.exp ((1 - av) * n * F * eta / (R * T))
    - Real.exp (-av * n * F * eta / (R * T)))

/-- The diffusion term of `butler_volmer` in
`buttler_butter_fast_scan_cyclic.py`, as a function of the elapsed time
`t[t_idx]`:

    j_diffusion = (n * F * D * C_bulk / delta)
                  * (1 - np.exp(-scan_rate * t[t_idx] / (D / delta**2))) -/
noncomputable def j_diffusion (tval : ℝ) : ℝ :=
  (n * F * D * C_bulk / delta) * (1 - Real.exp (-scan_rate * tval / (D / delta ^ 2)))

/-- The adsorption term of `butler_volmer` in
`buttler_butter_fast_scan_cyclic.py` (`(E_applied > 0)` is the 0/1
indicator Python produces from the boolean):

    j_adsorption = 0.15 * j0 * np.sin(np.pi * E_applied / E_vertex) * (E_applied > 0) -/
noncomputable def j_adsorption (Eapplied : ℝ) : ℝ :=
  0.15 * j0 * Real.sin (Real.pi * Eapplied / E_vertex)
    * (if 0 < Eapplied then (1 : ℝ) else 0)

/-- The full current model `butler_volmer(E_applied, t_idx)` of
`buttler_butter_fast_scan_cyclic.py`: `j_net + j_diffusion + j_adsorption`
with `eta = E_applied - E0`. -/
noncomputable def butler_volmer (Eapplied tval : ℝ) : ℝ :=
  chargeTransfer j0 alpha (Eapplied - E0) + j_diffusion tval + j_adsorption Eapplied

end BV

/-! ### The pH trajectory of `oxidacion_dopamina.py` as a function of the
process-wide global random stream

The script draws every random number from NumPy's implicit global generator
(`np.random.randn()`, `np.random.uniform(...)`) and never calls any seeding
function.  We model the ambient global generator as the stream `g : ℕ → ℝ`
of standard-normal draws it hands out, consumed in order; the pH loop
consumes `g 0, …, g (n_pas - 1)`.  Source constants: `ph[0] = 7.2`,
`theta = 0.05`, `sigma_ph = 0.1`, `dt = 0.1`, clamp range `[6.5, 7.8]`. -/

namespace Oxi

/-- Integration step of the reaction script, `dt = 0.1` (s). -/
def dt : ℝ := 0.1

/-- Reversion speed of the pH process, `theta = 0.05`. -/
def theta : ℝ := 0.05

/-- Fluctuation magnitude of the pH process, `sigma_ph = 0.1`. -/
def sigma_ph : ℝ := 0.1

/-- The pre-clamp pH trajectory as a function of the ambient global draw
stream `g`:

    ph[0] = 7.2
    ph[i+1] = ph[i] + theta*(7.2 - ph[i])*dt + sigma_ph*np.sqrt(dt)*np.random.randn() -/
noncomputable def ph (g : ℕ → ℝ) : ℕ → ℝ
  | 0 => 7.2
  | i + 1 => ph g i + theta * (7.2 - ph g i) * dt + sigma_ph * Real.sqrt dt * g i

/-- Elementwise `np.clip` over `ℝ`. -/
noncomputable def clipR (lo hi x : ℝ) : ℝ := min (max x lo) hi

/-- The published pH trajectory, `ph = np.clip(ph, 6.5, 7.8)`. -/
noncomputable def phClipped (g : ℕ → ℝ) (i : ℕ) : ℝ := clipR 6.5 7.8 (ph g i)

end Oxi

/-! ## Theorems -/

/-- Helper: a zero-or-negative `stop/step` quotient yields an empty
`np.arange` grid. -/
lemma numPoints_eq_zero {stop step : ℚ} (h : stop / step ≤ 0) :
    numPoints stop step = 0 := by
  unfold numPoints
  rw [Int.toNat_eq_zero]
  exact Int.ceil_le.mpr (by exact_mod_cast h)

/-- C3 (counterexample): at the source's `E_start = -0.4`, `E_vertex = 1.3`,
`dt = 1e-5` but `time_total = 0` — a configuration the claim says must fail
with `InvalidParameter` at configuration-validation time — the scripts
perform no validation at all: `np.arange(0, 0, 1e-5)` is the empty grid and
the waveform generator returns normally with the empty waveform.  The
embedding is total exactly as the source, which raises nothing. -/
theorem no_invalid_parameter_check_at_zero_time_total :
    Ewave (-2/5) (13/10) 0 (1/100000) = [] ∧ numPoints 0 (1/100000) = 0 := by
  constructor
  · norm_num [Ewave, numPoints]
  · norm_num [numPoints]

/-- C3 (amended): there is no eager parameter validation and no
`InvalidParameter` failure mode in the source; a run configured with
`time_total ≤ 0` (and positive `dt`) simply produces the empty time grid and
the empty waveform, without any error and without executing a simulation
step. -/
theorem degenerate_config_runs_empty (Estart Evertex timeTotal dt : ℚ)
    (htt : timeTotal ≤ 0) (hdt : 0 < dt) :
    numPoints timeTotal dt = 0 ∧ Ewave Estart Evertex timeTotal dt = [] := by
  have h0 : numPoints timeTotal dt = 0 :=
    numPoints_eq_zero (div_nonpos_iff.mpr (Or.inr ⟨htt, hdt.le⟩))
  refine ⟨h0, ?_⟩
  rw [Ewave, h0]
  rfl

/-- C3 witness: the amended theorem applied at `time_total = 0`, `dt = 1`. -/
theorem degenerate_config_runs_empty_witness :
    (0 : ℚ) ≤ 0 ∧ (0 : ℚ) < 1 ∧
      (numPoints 0 1 = 0 ∧ Ewave 0 0 0 1 = []) :=
  ⟨le_refl 0, by norm_num, degenerate_config_runs_empty 0 0 0 1 (le_refl 0) (by norm_num)⟩

/-- C4 (counterexample): a valid scan parameter set on which the waveform
does NOT return exactly to `E_start` at the last index.  With `E_start = 0`,
`E_vertex = 1`, `time_total = 4`, `dt = 1` the generated waveform is
`[0, 1/2, 1, 1/2]`: index 0 is `E_start` and the midpoint (index 2) is
exactly `E_vertex`, but the last sample — taken at `time_total - dt`, not at
`time_total` — is `1/2 ≠ E_start`. -/
theorem waveform_last_index_not_Estart :
    Ewave 0 1 4 1 = [0, 1/2, 1, 1/2] ∧ ((1 : ℚ)/2 ≠ 0) := by
  constructor
  · have h4 : numPoints 4 1 = 4 := by
      norm_num [numPoints]
      rfl
    rw [Ewave, h4]
    norm_num [List.range_succ, Esample, tSample, rampUp, rampDown]
  · norm_num

/-- C4 (amended): for every scan parameter set with `dt > 0` and
`time_total = N * dt` for an even positive sample count `N = 2 * M`,
assuming exact arithmetic: the grid has `2 * M` samples, the output at
index 0 equals `E_start`, the midpoint sample (index `M`, time
`time_total/2`) equals `E_vertex` exactly, the two ramp branches agree at
the reversal time `time_total/2` (the waveform is continuous there), and
the LAST sample — taken at `time_total - dt` — equals
`E_start + (E_vertex - E_start) * dt / (time_total/2)`: it returns to
`E_start` only to within one sample step, exactly so only when
`E_vertex = E_start`. -/
theorem waveform_endpoints (Estart Evertex dt timeTotal : ℚ) (M : ℕ)
    (hdt : 0 < dt) (hM : 0 < M) (htt : timeTotal = 2 * (M : ℚ) * dt) :
    numPoints timeTotal dt = 2 * M ∧
    Esample Estart Evertex timeTotal dt 0 = Estart ∧
    Esample Estart Evertex timeTotal dt M = Evertex ∧
    rampUp Estart Evertex timeTotal (timeTotal / 2)
      = rampDown Estart Evertex timeTotal (timeTotal / 2) ∧
    Esample Estart Evertex timeTotal dt (2 * M - 1)
      = Estart + (Evertex - Estart) * dt / (timeTotal / 2) := by
  have hdt' : dt ≠ 0 := ne_of_gt hdt
  have hMQ : (0 : ℚ) < (M : ℚ) := by exact_mod_cast hM
  have hhalf : timeTotal / 2 = (M : ℚ) * dt := by rw [htt]; ring
  have hhalf0 : timeTotal / 2 ≠ 0 := by
    rw [hhalf]; positivity
  refine ⟨?_, ?_, ?_, ?_, ?_⟩
  · -- sample count: ⌈(2*M*dt)/dt⌉ = 2*M
    unfold numPoints
    rw [htt]
    rw [mul_div_assoc, div_self hdt', mul_one]
    have : (2 * (M : ℚ)) = ((2 * M : ℕ) : ℚ) := by push_cast; ring
    rw [this, Int.ceil_natCast]
    exact Int.toNat_natCast _
  · -- index 0 is E_start
    unfold Esample tSample
    rw [if_pos]
    · unfold rampUp
      rw [Nat.cast_zero, zero_mul, mul_zero, zero_div, add_zero]
    · rw [Nat.cast_zero, zero_mul, hhalf]
      positivity
  · -- midpoint sample is exactly E_vertex (tie lands in the ramp-down branch)
    unfold Esample tSample
    rw [if_neg (by rw [hhalf]; exact lt_irrefl _)]
    unfold rampDown
    rw [hhalf, sub_self, mul_zero, zero_div, sub_zero]
  · -- the two branches agree at the reversal time
    have htt0 : timeTotal ≠ 0 := by rw [htt]; positivity
    unfold rampUp rampDown
    field_simp
  · -- last sample, at time (2*M - 1) * dt = time_total - dt
    have hcast : ((2 * M - 1 : ℕ) : ℚ) = 2 * (M : ℚ) - 1 := by
      have h1 : 1 ≤ 2 * M := by omega
      push_cast [Nat.cast_sub h1]
      ring
    unfold Esample tSample
    rw [if_neg]
    · unfold rampDown
      rw [hcast, hhalf]
      have hMdt : (M : ℚ) * dt ≠ 0 := by positivity
      field_simp
      ring
    · rw [hcast, hhalf, not_lt]
      have : (M : ℚ) ≤ 2 * (M : ℚ) - 1 := by
        have : (1 : ℚ) ≤ (M : ℚ) := by exact_mod_cast hM
        linarith
      exact mul_le_mul_of_nonneg_right this hdt.le

/-- C4 witness: the amended theorem applied at `E_start = 0`, `E_vertex = 1`,
`dt = 1`, `M = 2` (`time_total = 4`). -/
theorem waveform_endpoints_witness :
    (0 : ℚ) < 1 ∧ 0 < 2 ∧ (4 : ℚ) = 2 * ((2 : ℕ) : ℚ) * 1 ∧
      (numPoints 4 1 = 2 * 2 ∧
       Esample 0 1 4 1 0 = 0 ∧
       Esample 0 1 4 1 2 = 1 ∧
       rampUp 0 1 4 (4 / 2) = rampDown 0 1 4 (4 / 2) ∧
       Esample 0 1 4 1 (2 * 2 - 1) = 0 + (1 - 0) * 1 / (4 / 2)) :=
  ⟨by norm_num, by norm_num, by norm_num,
    waveform_endpoints 0 1 1 4 2 (by norm_num) (by norm_num) (by norm_num)⟩

/-- C5: for every sample time `t = i * dt`, the waveform value equals the
ramp-up interpolation whenever `t ≤ time_total/2` — in particular the tie at
exactly `t = time_total/2` yields the ramp-up value (the source's strict
`t[i] < half_time` takes the ramp-down branch there, but the two branches
coincide at the reversal point, so the stated value is the ramp-up one) —
and equals the ramp-down interpolation whenever `t > time_total/2`. -/
theorem waveform_tie_break (Estart Evertex timeTotal dt : ℚ)
    (htt : 0 < timeTotal) (i : ℕ) :
    (tSample dt i ≤ timeTotal / 2 →
      Esample Estart Evertex timeTotal dt i
        = rampUp Estart Evertex timeTotal (tSample dt i)) ∧
    (timeTotal / 2 < tSample dt i →
      Esample Estart Evertex timeTotal dt i
        = rampDown Estart Evertex timeTotal (tSample dt i)) := by
  have hhalf0 : timeTotal / 2 ≠ 0 := by positivity
  constructor
  · intro hle
    rcases lt_or_eq_of_le hle with hlt | heq
    · unfold Esample
      rw [if_pos hlt]
    · -- the tie: the source takes the ramp-down branch, whose value at the
      -- reversal point equals the ramp-up value
      unfold Esample
      rw [if_neg (by rw [heq]; exact lt_irrefl _), heq]
      unfold rampUp rampDown
      field_simp
  · intro hgt
    unfold Esample
    rw [if_neg (not_lt.mpr hgt.le)]

/-- C5 witness: the tie case at `E_start = 0`, `E_vertex = 1`,
`time_total = 4`, `dt = 1`, sample index 2 (time `2 = time_total/2`). -/
theorem waveform_tie_break_witness :
    (0 : ℚ) < 4 ∧ tSample 1 2 ≤ 4 / 2 ∧
      Esample 0 1 4 1 2 = rampUp 0 1 4 (tSample 1 2) :=
  ⟨by norm_num, by norm_num [tSample],
    (waveform_tie_break 0 1 4 1 (by norm_num) 2).1 (by norm_num [tSample])⟩

/-- C6: for every clamp range `[lo, hi]` with `lo ≤ hi` and every parameter
set (including every value of `sqrt dt` and every realization of the random
draws), every value of the trajectory returned by `generate_mean_reverting`
satisfies `lo ≤ x ≤ hi`; the clamp is applied post-hoc to the whole
generated sequence. -/
theorem noise_trajectory_clamped (x0 mean theta sigma dt sqdt lo hi : ℚ)
    (Z : ℕ → ℚ) (nSteps : ℕ) (h : lo ≤ hi) :
    ∀ x ∈ generate_mean_reverting x0 mean theta sigma dt sqdt Z nSteps lo hi,
      lo ≤ x ∧ x ≤ hi := by
  intro x hx
  unfold generate_mean_reverting at hx
  rw [List.mem_map] at hx
  obtain ⟨y, -, rfl⟩ := hx
  unfold clip
  exact ⟨le_min (le_max_right y lo) h, min_le_right _ hi⟩

/-- C6 witness: clamp range `[0, 1]`, a one-sample trajectory starting at
`7/10`; the produced value `7/10` is inside the range. -/
theorem noise_trajectory_clamped_witness :
    (0 : ℚ) ≤ 1 ∧ ((0 : ℚ) ≤ clip 0 1 (genMeanRev (7/10) 0 0 0 0 0 (fun _ => 0) 0)
      ∧ clip 0 1 (genMeanRev (7/10) 0 0 0 0 0 (fun _ => 0) 0) ≤ 1) :=
  ⟨by norm_num,
    noise_trajectory_clamped (7/10) 0 0 0 0 0 0 1 (fun _ => 0) 0 (by norm_num)
      (clip 0 1 (genMeanRev (7/10) 0 0 0 0 0 (fun _ => 0) 0))
      (by simp [generate_mean_reverting, List.range_succ])⟩

/-- C7: with `k_decomp = 0` and no stress events, the Euler update subtracts
`v*dt` from dopamine and adds `v*dt` to quinone at every step, so
`dopamine[i] + quinone[i] = dopamine[0] + quinone[0]` for every time index
`i` (exactly, under exact arithmetic), for every step size, rate constant,
pH/oxygen trajectory, pH-factor function and initial state. -/
theorem mass_balance (dt kBase kDecomp : ℚ) (oxi ph : ℕ → ℚ) (fph : ℚ → ℚ)
    (d0 p0 q0 : ℚ) (hk : kDecomp = 0) (i : ℕ) :
    (eulerSim dt kBase kDecomp oxi ph fph [] [] d0 p0 q0 i).1
      + (eulerSim dt kBase kDecomp oxi ph fph [] [] d0 p0 q0 i).2.2
      = d0 + q0 := by
  induction i with
  | zero => rfl
  | succ i ih =>
    simp only [eulerSim, List.not_mem_nil, if_false]
    ring_nf
    ring_nf at ih
    linarith [ih]

/-- C7 witness: a concrete one-step run (`dt = 1`, `k_base = 1`,
`k_decomp = 0`, unit trajectories, `dopamine[0] = 1`, `quinone[0] = 0`):
`dopamine[1] + quinone[1] = 1 + 0`. -/
theorem mass_balance_witness :
    (0 : ℚ) = 0 ∧
      (eulerSim 1 1 0 (fun _ => 1) (fun _ => 1) (fun x => x) [] [] 1 0 0 1).1
        + (eulerSim 1 1 0 (fun _ => 1) (fun _ => 1) (fun x => x) [] [] 1 0 0 1).2.2
        = 1 + 0 :=
  ⟨rfl, mass_balance 1 1 0 (fun _ => 1) (fun _ => 1) (fun x => x) 1 0 0 rfl 1⟩

/-- Helper: one unfolding of the Euler step, with the event branch expressed
through `injection`. -/
lemma eulerSim_succ (dt kBase kDecomp : ℚ) (oxi ph : ℕ → ℚ) (fph : ℚ → ℚ)
    (idxs : List ℕ) (mags : List ℚ) (d0 p0 q0 : ℚ) (i : ℕ) :
    eulerSim dt kBase kDecomp oxi ph fph idxs mags d0 p0 q0 (i + 1)
      = (let s := eulerSim dt kBase kDecomp oxi ph fph idxs mags d0 p0 q0 i
         let v := kBase * s.1 * oxi i * fph (ph i)
         (s.1 + (-v) * dt,
          s.2.1 + (v - kDecomp * s.2.1) * dt + injection idxs mags i,
          s.2.2 + v * dt)) := by
  by_cases hmem : i ∈ idxs <;>
    simp [eulerSim, injection, hmem]

/-- Helper: appending an extra event `(e, m)` to the scheduled lists changes
nothing about the amount injected at a step `j` that either already has an
event (`j ∈ idxs`: Python's `list.index` still finds the earlier position)
or differs from `e`. -/
lemma injection_append (idxs : List ℕ) (mags : List ℚ) (e : ℕ) (m : ℚ)
    (hlen : idxs.length = mags.length) (j : ℕ) (hj : j ∈ idxs ∨ j ≠ e) :
    injection (idxs ++ [e]) (mags ++ [m]) j = injection idxs mags j := by
  by_cases hmem : j ∈ idxs
  · unfold injection
    rw [if_pos hmem, if_pos (List.mem_append_left [e] hmem),
      List.indexOf_append_of_mem hmem,
      List.getD_append _ _ _ _ (hlen ▸ List.indexOf_lt_length.mpr hmem)]
  · have hne : j ≠ e := hj.resolve_left hmem
    unfold injection
    rw [if_neg hmem, if_neg]
    rw [List.mem_append]
    rintro (h | h)
    · exact hmem h
    · exact hne (List.mem_singleton.mp h)

/-- Helper: two runs of the Euler loop that inject the same amounts at every
step below `n` agree on all state indices `0 … n`. -/
lemma eulerSim_congr (dt kBase kDecomp : ℚ) (oxi ph : ℕ → ℚ) (fph : ℚ → ℚ)
    (idxs idxs' : List ℕ) (mags mags' : List ℚ) (d0 p0 q0 : ℚ) (nSteps : ℕ)
    (h : ∀ j, j < nSteps → injection idxs mags j = injection idxs' mags' j) :
    ∀ i, i ≤ nSteps →
      eulerSim dt kBase kDecomp oxi ph fph idxs mags d0 p0 q0 i
        = eulerSim dt kBase kDecomp oxi ph fph idxs' mags' d0 p0 q0 i := by
  intro i
  induction i with
  | zero => intro _; rfl
  | succ i ih =>
    intro hi
    rw [eulerSim_succ, eulerSim_succ, ih (Nat.le_of_succ_le hi),
      h i (Nat.lt_of_succ_le hi)]

/-- C1 (counterexample): two scheduled events both floor-map to time index 0,
with magnitudes `1/2` and `1/4` (with `k_base = 0` so no kinetics interfere,
`peroxide[0] = 0`).  The claim says both magnitudes are added to
`peroxide[1]` (sum `3/4`); the source's `indices_picos.index(i)` returns the
FIRST matching position, so only the first magnitude `1/2` is added. -/
theorem event_collision_only_first_applied :
    (eulerSim 1 0 0 (fun _ => 0) (fun _ => 0) (fun _ => 0)
        [0, 0] [1/2, 1/4] 1 0 0 1).2.1 = 1/2
      ∧ ((1 : ℚ)/2 ≠ 1/2 + 1/4) := by
  constructor
  · norm_num [eulerSim]
  · norm_num

/-- C1 (amended): events are applied at most once per index, and when
several scheduled events floor-map to the same time index, only the FIRST
of them (the one at the earliest list position) has its magnitude added to
`peroxide[i+1]`; any later event at an already-occupied index is ignored —
formally, appending a further event at an index `e` that already carries an
event leaves every state of every run unchanged, whatever its magnitude. -/
theorem event_collision_first_only (dt kBase kDecomp : ℚ) (oxi ph : ℕ → ℚ)
    (fph : ℚ → ℚ) (idxs : List ℕ) (mags : List ℚ) (d0 p0 q0 : ℚ)
    (e : ℕ) (m : ℚ) (hlen : idxs.length = mags.length) (he : e ∈ idxs)
    (i : ℕ) :
    eulerSim dt kBase kDecomp oxi ph fph (idxs ++ [e]) (mags ++ [m]) d0 p0 q0 i
      = eulerSim dt kBase kDecomp oxi ph fph idxs mags d0 p0 q0 i := by
  refine eulerSim_congr dt kBase kDecomp oxi ph fph _ _ _ _ d0 p0 q0 i
    (fun j _ => injection_append idxs mags e m hlen j ?_) i le_rfl
  by_cases hmem : j ∈ idxs
  · exact Or.inl hmem
  · exact Or.inr (fun hje => hmem (hje ▸ he))

/-- C1 witness for the amended theorem: appending a second event at the
already-occupied index 0 (magnitude `1/4`) does not change the state after
one step. -/
theorem event_collision_first_only_witness :
    ([0] : List ℕ).length = ([1/2] : List ℚ).length ∧ 0 ∈ ([0] : List ℕ) ∧
      eulerSim 1 0 0 (fun _ => 0) (fun _ => 0) (fun _ => 0)
          ([0] ++ [0]) ([1/2] ++ [1/4]) 1 0 0 1
        = eulerSim 1 0 0 (fun _ => 0) (fun _ => 0) (fun _ => 0)
          [0] [1/2] 1 0 0 1 :=
  ⟨rfl, List.mem_singleton.mpr rfl,
    event_collision_first_only 1 0 0 (fun _ => 0) (fun _ => 0) (fun _ => 0)
      [0] [1/2] 1 0 0 0 (1/4) rfl (List.mem_singleton.mpr rfl) 1⟩

/-- C9: a scheduled stress event whose drawn time `tp` floor-maps to index
`int(tp/dt) ≥ n_pas` (index `n_pas` itself is reachable, e.g. for `tp = T`)
is never applied: the Euler loop only tests step indices `0 … n_pas - 1`, so
appending such an event (any magnitude `m`) leaves the whole length-
`n_pas + 1` peroxide (and dopamine, quinone) trajectory unchanged — the
magnitude is silently dropped, with no error and no out-of-bounds access
(the embedding, like the source, is total). -/
theorem late_event_silently_dropped (dt kBase kDecomp : ℚ) (oxi ph : ℕ → ℚ)
    (fph : ℚ → ℚ) (idxs : List ℕ) (mags : List ℚ) (d0 p0 q0 : ℚ)
    (nPas : ℕ) (tp m : ℚ) (hlen : idxs.length = mags.length)
    (htp : nPas ≤ indexOfTime tp dt) :
    simTraj dt kBase kDecomp oxi ph fph (idxs ++ [indexOfTime tp dt])
        (mags ++ [m]) d0 p0 q0 nPas
      = simTraj dt kBase kDecomp oxi ph fph idxs mags d0 p0 q0 nPas := by
  unfold simTraj
  refine List.map_congr_left (fun i hi => ?_)
  rw [List.mem_range] at hi
  refine eulerSim_congr dt kBase kDecomp oxi ph fph _ _ _ _ d0 p0 q0 i
    (fun j hj => injection_append idxs mags _ m hlen j (Or.inr ?_)) i le_rfl
  omega

/-- C9 witness: `dt = 1`, `n_pas = 2`, event time `tp = 2` (so
`int(tp/dt) = 2 = n_pas`), one earlier event at index 0: appending the late
event does not change the three-sample trajectory. -/
theorem late_event_silently_dropped_witness :
    ([0] : List ℕ).length = ([1/3] : List ℚ).length ∧ 2 ≤ indexOfTime 2 1 ∧
      simTraj 1 0 0 (fun _ => 0) (fun _ => 0) (fun _ => 0)
          ([0] ++ [indexOfTime 2 1]) ([1/3] ++ [5]) 1 0 0 2
        = simTraj 1 0 0 (fun _ => 0) (fun _ => 0) (fun _ => 0)
          [0] [1/3] 1 0 0 2 :=
  ⟨rfl, by norm_num [indexOfTime],
    late_event_silently_dropped 1 0 0 (fun _ => 0) (fun _ => 0) (fun _ => 0)
      [0] [1/3] 1 0 0 2 2 5 rfl (by norm_num [indexOfTime])⟩

/-- C8: for every applied potential `E_applied ≤ 0` and every elapsed time,
the adsorption contribution `0.15*j0*sin(pi*E_applied/E_vertex)` of
`compute_current` (`butler_volmer` in the FSCV script) is exactly 0 — the
`(E_applied > 0)` indicator gates it off — so the computed current reduces
to the charge-transfer plus diffusion terms. -/
theorem adsorption_gated_off (Eapplied tval : ℝ) (h : Eapplied ≤ 0) :
    BV.j_adsorption Eapplied = 0 ∧
      BV.butler_volmer Eapplied tval
        = BV.chargeTransfer BV.j0 BV.alpha (Eapplied - BV.E0)
          + BV.j_diffusion tval := by
  have h0 : BV.j_adsorption Eapplied = 0 := by
    unfold BV.j_adsorption
    rw [if_neg (not_lt.mpr h), mul_zero]
  exact ⟨h0, by rw [BV.butler_volmer, h0, add_zero]⟩

/-- C8 witness: the theorem applied at `E_applied = -1`, `t = 0`. -/
theorem adsorption_gated_off_witness :
    (-1 : ℝ) ≤ 0 ∧
      (BV.j_adsorption (-1) = 0 ∧
        BV.butler_volmer (-1) 0
          = BV.chargeTransfer BV.j0 BV.alpha ((-1) - BV.E0)
            + BV.j_diffusion 0) :=
  ⟨neg_nonpos.mpr zero_le_one,
    adsorption_gated_off (-1) 0 (neg_nonpos.mpr zero_le_one)⟩

/-- Helper: `np.clip` is the identity on values inside the clamp range. -/
lemma clipR_of_mem {lo hi x : ℝ} (h1 : lo ≤ x) (h2 : x ≤ hi) :
    Oxi.clipR lo hi x = x := by
  unfold Oxi.clipR
  rw [max_eq_left h1, min_eq_left h2]

/-- C2 (counterexample): the pH trajectory reads the process-wide implicit
global random stream.  Two runs of the unmodified script under different
ambient global-generator states — modelled as the draw streams
`g = (0, 0, …)` and `g' = (1, 0, 0, …)` — produce different published pH
values already at index 1 (`7.2` versus `7.2 + 0.1*sqrt(0.1)`, both inside
the clamp range).  The script never seeds any generator, so no
"explicitly-seeded pseudorandom source" exists, and the stochastic calls do
read the global state: the output depends on it. -/
theorem global_random_state_is_read :
    Oxi.phClipped (fun _ => 0) 1
      ≠ Oxi.phClipped (fun i => if i = 0 then 1 else 0) 1 := by
  have hsq_pos : 0 < Real.sqrt 0.1 := Real.sqrt_pos.mpr (by norm_num)
  have hsq_le : Real.sqrt 0.1 ≤ 1 := Real.sqrt_le_one.mpr (by norm_num)
  have hv0 : Oxi.ph (fun _ => 0) 1 = 7.2 := by
    show (7.2 : ℝ) + Oxi.theta * (7.2 - 7.2) * Oxi.dt
        + Oxi.sigma_ph * Real.sqrt Oxi.dt * 0 = 7.2
    ring
  have hv1 : Oxi.ph (fun i => if i = 0 then 1 else 0) 1
      = 7.2 + Oxi.sigma_ph * Real.sqrt Oxi.dt := by
    show (7.2 : ℝ) + Oxi.theta * (7.2 - 7.2) * Oxi.dt
        + Oxi.sigma_ph * Real.sqrt Oxi.dt * (if (0 : ℕ) = 0 then (1:ℝ) else 0)
        = 7.2 + Oxi.sigma_ph * Real.sqrt Oxi.dt
    rw [if_pos rfl]
    ring
  have hd : Oxi.sigma_ph * Real.sqrt Oxi.dt ≤ 0.1 := by
    unfold Oxi.sigma_ph Oxi.dt
    nlinarith [hsq_le, hsq_pos]
  have hd_pos : 0 < Oxi.sigma_ph * Real.sqrt Oxi.dt := by
    unfold Oxi.sigma_ph Oxi.dt
    positivity
  unfold Oxi.phClipped
  rw [hv0, hv1, clipR_of_mem (by norm_num) (by norm_num),
    clipR_of_mem (by linarith) (by linarith)]
  linarith

/-- C2 (amended): every stochastic call of the script draws from the
process-wide implicit (never-seeded) NumPy global generator; the run is
nevertheless a deterministic function of that global draw stream: two runs
that read identical draws produce identical (bit-identical, in exact
arithmetic) published pH trajectories. -/
theorem trajectory_deterministic_in_stream (g g' : ℕ → ℝ) (nSteps : ℕ)
    (h : ∀ i, i < nSteps → g i = g' i) :
    ∀ j, j ≤ nSteps → Oxi.phClipped g j = Oxi.phClipped g' j := by
  have hph : ∀ j, j ≤ nSteps → Oxi.ph g j = Oxi.ph g' j := by
    intro j
    induction j with
    | zero => intro _; rfl
    | succ j ih =>
      intro hj
      show Oxi.ph g j + Oxi.theta * (7.2 - Oxi.ph g j) * Oxi.dt
          + Oxi.sigma_ph * Real.sqrt Oxi.dt * g j
        = Oxi.ph g' j + Oxi.theta * (7.2 - Oxi.ph g' j) * Oxi.dt
          + Oxi.sigma_ph * Real.sqrt Oxi.dt * g' j
      rw [ih (Nat.le_of_succ_le hj), h j (Nat.lt_of_succ_le hj)]
  intro j hj
  unfold Oxi.phClipped
  rw [hph j hj]

/-- C2 witness for the amended theorem: two streams agreeing on the first
draw give the same pH value at index 1. -/
theorem trajectory_deterministic_in_stream_witness :
    (∀ i, i < 1 → (fun _ : ℕ => (0:ℝ)) i = (fun _ : ℕ => (0:ℝ)) i) ∧
      Oxi.phClipped (fun _ => 0) 1 = Oxi.phClipped (fun _ => 0) 1 :=
  ⟨fun _ _ => rfl,
    trajectory_deterministic_in_stream (fun _ => 0) (fun _ => 0) 1
      (fun _ _ => rfl) 1 le_rfl⟩

/-- C10: for a common nonzero exchange-current prefactor (the claim's
`i0 = j0`), the bare sweep formula of `butler_volmer.py`,
`i0*(exp(alpha*n*F*eta/(R*T)) - exp(-(1-alpha)*n*F*eta/(R*T)))`, agrees
with the FSCV/ideal scripts' charge-transfer term
`j0*(exp((1-alpha)*n*F*eta/(R*T)) - exp(-alpha*n*F*eta/(R*T)))` at EVERY
overpotential if and only if `alpha = 1/2` — the configured value in all
three scripts.  For any `alpha ≠ 1/2` the two formulas differ at some
overpotential. -/
theorem bv_embeddings_equivalent (i0v av : ℝ) (h : i0v ≠ 0) :
    (∀ eta, BV.sweepCurrent i0v av eta = BV.chargeTransfer i0v av eta)
      ↔ av = 1/2 := by
  have hnF : BV.n * BV.F ≠ 0 := by norm_num [BV.n, BV.F]
  have hRT : BV.R * BV.T ≠ 0 := by norm_num [BV.R, BV.T]
  have harg : ∀ a : ℝ,
      a * BV.n * BV.F * (BV.R * BV.T / (BV.n * BV.F)) / (BV.R * BV.T) = a := by
    intro a
    field_simp
    ring
  constructor
  · intro hall
    by_contra hne
    have he := hall (BV.R * BV.T / (BV.n * BV.F))
    simp only [BV.sweepCurrent, BV.chargeTransfer] at he
    rw [harg av, harg (1 - av), harg (-(1 - av)), harg (-av)] at he
    have hcancel := mul_left_cancel₀ h he
    have hcosh : Real.cosh av = Real.cosh (1 - av) := by
      rw [Real.cosh_eq, Real.cosh_eq]
      linarith [hcancel]
    have habs : |av| = |1 - av| :=
      le_antisymm (Real.cosh_le_cosh.mp hcosh.le) (Real.cosh_le_cosh.mp hcosh.ge)
    have hsq : av ^ 2 = (1 - av) ^ 2 := by
      rw [← sq_abs av, ← sq_abs (1 - av), habs]
    exact hne (by nlinarith [hsq])
  · intro hav eta
    subst hav
    simp only [BV.sweepCurrent, BV.chargeTransfer]
    norm_num

/-- C10 witness: at `i0 = j0 = 1`, `alpha = 1/2`, the two formulas agree at
overpotential 0. -/
theorem bv_embeddings_equivalent_witness :
    (1 : ℝ) ≠ 0 ∧ BV.sweepCurrent 1 (1/2) 0 = BV.chargeTransfer 1 (1/2) 0 :=
  ⟨one_ne_zero, (bv_embeddings_equivalent 1 (1/2) one_ne_zero).mpr rfl 0⟩

end DopamineSim
